import Mathlib

/-!
Verification of the ARK server orchestration-and-monitoring engine.

Shallow embedding of the JavaScript source:
* `serverModel.addServerConfig` port allocation (linear upward scan),
* `dockerService.calculateCPUPercentage`, `executeStopServer`,
  `generateClusterId`,
* `serverController.fetchAllServersStatus` status reconciliation,
* `monitorsService.setServerStatus`, `consumeStatsStream` handlers,
  the docker-log keyword scanner and the startup watchdog.

JS numbers are modelled as rationals where division occurs and as
naturals elsewhere; JS objects keyed by server name are modelled as
association lists or as functions to `Option`; fallible handlers return
the mutated state together with the exception that escaped, if any.
-/

set_option maxRecDepth 10000

/-! ## Port allocation (`serverModel.addServerConfig`, step 3)

The source scans upward from the configured base:
`while (usedPorts.has(newPort)) newPort++`.
We give the loop explicit fuel; `used.length + 1` steps always suffice
because every bump consumes at least one element of `used`. -/

/-- One JS `while (used.has(cur)) cur++` loop, with explicit fuel. -/
def scanFreePort (used : List Nat) : Nat → Nat → Nat
  | 0, cur => cur
  | fuel + 1, cur => if cur ∈ used then scanFreePort used fuel (cur + 1) else cur

/-- `addServerConfig` port allocation: first free port at or above the base. -/
def allocatePort (base : Nat) (used : List Nat) : Nat :=
  scanFreePort used (used.length + 1) base

/-- Server record fields used by the allocator (`configServer.json` entries). -/
structure ServerCfg where
  SERVER_NAME : String
  PORT : Nat
  RCON_PORT : Nat
  deriving DecidableEq, Repr

/-- Port pair allocation of `addServerConfig`: game port and RCON port are
scanned independently over the existing servers' ports. -/
def addServerConfigPorts (basePort baseRconPort : Nat)
    (servers : List ServerCfg) : Nat × Nat :=
  (allocatePort basePort (servers.map (·.PORT)),
   allocatePort baseRconPort (servers.map (·.RCON_PORT)))

theorem length_filter_ge_succ (cur : Nat) (l : List Nat) :
    (l.filter (fun p => cur ≤ p)).length =
      (l.filter (fun p => cur + 1 ≤ p)).length + l.count cur := by
  induction l with
  | nil => simp
  | cons a t ih =>
    simp only [List.filter_cons, List.count_cons, ih, decide_eq_true_eq]
    split_ifs <;> simp_all [List.length_cons] <;> omega

theorem scanFreePort_spec (used : List Nat) :
    ∀ fuel cur, (used.filter (fun p => cur ≤ p)).length < fuel →
      scanFreePort used fuel cur ∉ used ∧
      cur ≤ scanFreePort used fuel cur ∧
      ∀ p, cur ≤ p → p < scanFreePort used fuel cur → p ∈ used := by
  intro fuel
  induction fuel with
  | zero => intro cur h; omega
  | succ n ih =>
    intro cur h
    by_cases hcur : cur ∈ used
    · have hlen : (used.filter (fun p => cur + 1 ≤ p)).length <
          (used.filter (fun p => cur ≤ p)).length := by
        have hc : 0 < used.count cur := List.count_pos_iff.2 hcur
        have := length_filter_ge_succ cur used
        omega
      have h2 : (used.filter (fun p => cur + 1 ≤ p)).length < n := by omega
      obtain ⟨hnm, hge, hmin⟩ := ih (cur + 1) h2
      refine ⟨?_, ?_, ?_⟩
      · simpa [scanFreePort, hcur] using hnm
      · simp only [scanFreePort, if_pos hcur]; omega
      · intro p hp1 hp2
        simp only [scanFreePort, if_pos hcur] at hp2
        rcases Nat.eq_or_lt_of_le hp1 with rfl | hlt
        · exact hcur
        · exact hmin p hlt hp2
    · refine ⟨?_, ?_, ?_⟩
      · simp [scanFreePort, hcur]
      · simp [scanFreePort, hcur]
      · intro p hp1 hp2
        simp only [scanFreePort, if_neg hcur] at hp2
        omega

theorem allocatePort_spec (base : Nat) (used : List Nat) :
    allocatePort base used ∉ used ∧
    base ≤ allocatePort base used ∧
    ∀ p, base ≤ p → p < allocatePort base used → p ∈ used := by
  apply scanFreePort_spec
  calc (used.filter (fun p => base ≤ p)).length
      ≤ used.length := List.length_filter_le _ _
    _ < used.length + 1 := Nat.lt_succ_self _

/-- C3: every allocated game port (and independently every allocated RCON
port) is at least the configured base, differs from every port already
assigned to an existing server, and is the smallest such value (linear
upward scan); with bases 7777/27020 and one existing server holding
7777 and 27020 the allocator returns 7778 and 27021. -/
theorem ports_allocation_correct (basePort baseRconPort : Nat)
    (servers : List ServerCfg) :
    (basePort ≤ (addServerConfigPorts basePort baseRconPort servers).1 ∧
      (∀ s ∈ servers,
        (addServerConfigPorts basePort baseRconPort servers).1 ≠ s.PORT) ∧
      ∀ p, basePort ≤ p → (∀ s ∈ servers, p ≠ s.PORT) →
        (addServerConfigPorts basePort baseRconPort servers).1 ≤ p) ∧
    (baseRconPort ≤ (addServerConfigPorts basePort baseRconPort servers).2 ∧
      (∀ s ∈ servers,
        (addServerConfigPorts basePort baseRconPort servers).2 ≠ s.RCON_PORT) ∧
      ∀ p, baseRconPort ≤ p → (∀ s ∈ servers, p ≠ s.RCON_PORT) →
        (addServerConfigPorts basePort baseRconPort servers).2 ≤ p) ∧
    addServerConfigPorts 7777 27020 [⟨"Old", 7777, 27020⟩] = (7778, 27021) := by
  obtain ⟨hnm₁, hge₁, hmin₁⟩ := allocatePort_spec basePort (servers.map (·.PORT))
  obtain ⟨hnm₂, hge₂, hmin₂⟩ :=
    allocatePort_spec baseRconPort (servers.map (·.RCON_PORT))
  simp only [addServerConfigPorts]
  refine ⟨⟨hge₁, ?_, ?_⟩, ⟨hge₂, ?_, ?_⟩, by decide⟩
  · intro s hs heq
    exact hnm₁ (heq ▸ List.mem_map_of_mem (·.PORT) hs)
  · intro p hp hfree
    by_contra hlt
    push_neg at hlt
    obtain ⟨s, hs, hsp⟩ := List.mem_map.1 (hmin₁ p hp hlt)
    exact hfree s hs hsp.symm
  · intro s hs heq
    exact hnm₂ (heq ▸ List.mem_map_of_mem (·.RCON_PORT) hs)
  · intro p hp hfree
    by_contra hlt
    push_neg at hlt
    obtain ⟨s, hs, hsp⟩ := List.mem_map.1 (hmin₂ p hp hlt)
    exact hfree s hs hsp.symm

/-- C3 witness: the general theorem instantiated on the spec scenario. -/
theorem ports_allocation_correct_witness :
    7777 ≤ (addServerConfigPorts 7777 27020 [⟨"Old", 7777, 27020⟩]).1 ∧
    (addServerConfigPorts 7777 27020 [⟨"Old", 7777, 27020⟩]).1 ≤ 7778 :=
  ⟨(ports_allocation_correct 7777 27020 [⟨"Old", 7777, 27020⟩]).1.1,
   (ports_allocation_correct 7777 27020 [⟨"Old", 7777, 27020⟩]).1.2.2 7778
     (by decide) (by decide)⟩

/-! ## CPU percentage (`dockerService.calculateCPUPercentage`)

The source guards with JS truthiness
(`!stats.cpu_stats?.cpu_usage?.total_usage || ...`): a missing field and
a present-but-zero field are both rejected, returning `0.0`.  Numbers
are modelled as rationals. -/

/-- JS truthiness of an optional numeric field: `undefined`/`null` and
`0` are falsy. -/
def jsTruthy : Option ℚ → Bool
  | none => false
  | some v => decide (v ≠ 0)

/-- JS truthiness of an optional natural-number field. -/
def jsTruthyNat : Option Nat → Bool
  | none => false
  | some n => decide (n ≠ 0)

/-- The fields of one Docker stats snapshot consumed by
`calculateCPUPercentage`.  `percpuUsageLen` is the length of
`cpu_stats.cpu_usage.percpu_usage` when that array is present. -/
structure DockerStatsSnapshot where
  cpuTotalUsage : Option ℚ
  precpuTotalUsage : Option ℚ
  systemCpuUsage : Option ℚ
  precpuSystemCpuUsage : Option ℚ
  onlineCpus : Option Nat
  percpuUsageLen : Option Nat
  deriving DecidableEq, Repr

/-- CPU-count selection of the source: `os.cpus().length` fallback,
overridden by truthy `online_cpus`, else by the `percpu_usage` length
when that array is present. -/
def cpuCountOf (osCpuCount : Nat) (onlineCpus percpuLen : Option Nat) : Nat :=
  if jsTruthyNat onlineCpus then onlineCpus.getD osCpuCount
  else
    match percpuLen with
    | some l => l
    | none => osCpuCount

/-- `calculateCPUPercentage`, translated from `dockerService.js`. -/
def calculateCPUPercentage (osCpuCount : Nat) (s : DockerStatsSnapshot) : ℚ :=
  if jsTruthy s.cpuTotalUsage = false ∨ jsTruthy s.precpuTotalUsage = false ∨
      jsTruthy s.systemCpuUsage = false ∨ jsTruthy s.precpuSystemCpuUsage = false
  then 0
  else
    let cpuDelta := s.cpuTotalUsage.getD 0 - s.precpuTotalUsage.getD 0
    let systemDelta := s.systemCpuUsage.getD 0 - s.precpuSystemCpuUsage.getD 0
    let cpuCount := cpuCountOf osCpuCount s.onlineCpus s.percpuUsageLen
    if systemDelta > 0 ∧ cpuDelta ≥ 0 ∧ cpuCount > 0 then
      cpuDelta / systemDelta * cpuCount * 100
    else 0

/-- C4 counterexample: a snapshot whose `precpu` total usage is present
but zero has positive system delta 1000 and non-negative CPU delta 200,
so the claim demands `(200/1000) * 4 * 100 = 80`, yet the code's
truthiness guard returns `0`. -/
theorem calculateCPUPercentage_zero_field_counterexample :
    (((2000 : ℚ) - 1000 > 0) ∧ ((200 : ℚ) - 0 ≥ 0) ∧
      ((200 : ℚ) - 0) / (2000 - 1000) * 4 * 100 = 80) ∧
    calculateCPUPercentage 8
      ⟨some 200, some 0, some 2000, some 1000, some 4, none⟩ = 0 ∧
    (0 : ℚ) ≠ 80 := by
  refine ⟨⟨by norm_num, by norm_num, by norm_num⟩, ?_, by norm_num⟩
  simp [calculateCPUPercentage, jsTruthy]

/-- C4 (amended): the result equals
`(cpuDelta / systemDelta) * cpuCount * 100` when all four usage fields
are present and non-zero, the system delta is positive, the CPU delta
non-negative and the CPU count positive; it is exactly `0` in every
other case (zero or negative system delta, negative CPU delta, missing
or zero required field); it is never negative; and the spec scenario
(CPU delta 200, system delta 1000, 4 online CPUs) reports 80. -/
theorem calculateCPUPercentage_spec :
    (∀ osC s, 0 ≤ calculateCPUPercentage osC s) ∧
    (∀ osC (a b c d : ℚ) oc pl, a ≠ 0 → b ≠ 0 → c ≠ 0 → d ≠ 0 →
      c - d > 0 → a - b ≥ 0 → 0 < cpuCountOf osC oc pl →
      calculateCPUPercentage osC ⟨some a, some b, some c, some d, oc, pl⟩ =
        (a - b) / (c - d) * cpuCountOf osC oc pl * 100) ∧
    (∀ osC s,
      jsTruthy s.cpuTotalUsage = false ∨ jsTruthy s.precpuTotalUsage = false ∨
      jsTruthy s.systemCpuUsage = false ∨
      jsTruthy s.precpuSystemCpuUsage = false →
      calculateCPUPercentage osC s = 0) ∧
    (∀ osC (a b c d : ℚ) oc pl,
      c - d ≤ 0 ∨ a - b < 0 ∨ cpuCountOf osC oc pl = 0 →
      calculateCPUPercentage osC ⟨some a, some b, some c, some d, oc, pl⟩
        = 0) ∧
    calculateCPUPercentage 8
      ⟨some 300, some 100, some 2000, some 1000, some 4, none⟩ = 80 := by
  refine ⟨?_, ?_, ?_, ?_, ?_⟩
  · intro osC s
    unfold calculateCPUPercentage
    dsimp only
    split
    · exact le_refl 0
    · split
      · rename_i hcond
        have hdiv := div_nonneg hcond.2.1 (le_of_lt hcond.1)
        exact mul_nonneg (mul_nonneg hdiv (Nat.cast_nonneg _)) (by norm_num)
      · exact le_refl 0
  · intro osC a b c d oc pl ha hb hc hd hsd hcd hcnt
    unfold calculateCPUPercentage
    dsimp only
    simp only [Option.getD_some, jsTruthy]
    rw [if_neg (by simp [ha, hb, hc, hd]), if_pos ⟨hsd, hcd, hcnt⟩]
  · intro osC s h
    unfold calculateCPUPercentage
    rw [if_pos h]
  · intro osC a b c d oc pl h
    unfold calculateCPUPercentage
    dsimp only
    simp only [Option.getD_some]
    split
    · rfl
    · rw [if_neg]
      rintro ⟨h1, h2, h3⟩
      rcases h with h | h | h
      · exact absurd h1 (not_lt.2 h)
      · exact absurd h2 (not_le.2 h)
      · omega
  · norm_num [calculateCPUPercentage, jsTruthy, cpuCountOf, jsTruthyNat]

/-- C4 witness for the amended theorem: the scenario snapshot satisfies
the hypotheses of the formula conjunct and yields 80. -/
theorem calculateCPUPercentage_spec_witness :
    calculateCPUPercentage 8
      ⟨some 300, some 100, some 2000, some 1000, some 4, none⟩ =
      ((300 : ℚ) - 100) / (2000 - 1000) * cpuCountOf 8 (some 4) none * 100 :=
  calculateCPUPercentage_spec.2.1 8 300 100 2000 1000 (some 4) none
    (by norm_num) (by norm_num) (by norm_num) (by norm_num)
    (by norm_num) (by norm_num) (by norm_num [cpuCountOf, jsTruthyNat])

/-! ## Stopping a container (`dockerService.executeStopServer`)

`container.stop()` either succeeds or rejects with an engine error
carrying a `statusCode`; the catch block swallows 404 (not found) and
304 (already stopped) and re-throws everything else. -/

/-- An error returned by the container engine. -/
structure EngineError where
  statusCode : Nat
  message : String
  deriving DecidableEq, Repr

/-- `executeStopServer`, as a function of the engine's response to
`container.stop()`. -/
def executeStopServer (engine : Except EngineError Unit) :
    Except EngineError Unit :=
  match engine with
  | .ok _ => .ok ()
  | .error e =>
    if e.statusCode = 404 then .ok ()
    else if e.statusCode = 304 then .ok ()
    else .error e

/-- C8: stop succeeds when the engine succeeds, when the container is
missing (404) and when it is already stopped (304); every other engine
error propagates unchanged to the caller. -/
theorem executeStopServer_spec :
    executeStopServer (.ok ()) = .ok () ∧
    (∀ m, executeStopServer (.error ⟨404, m⟩) = .ok ()) ∧
    (∀ m, executeStopServer (.error ⟨304, m⟩) = .ok ()) ∧
    ∀ e : EngineError, e.statusCode ≠ 404 → e.statusCode ≠ 304 →
      executeStopServer (.error e) = .error e := by
  refine ⟨rfl, fun m => rfl, fun m => rfl, ?_⟩
  intro e h4 h3
  simp [executeStopServer, h4, h3]

/-- C8 witness: a 500 engine error propagates; a 404 is swallowed. -/
theorem executeStopServer_spec_witness :
    executeStopServer (.error ⟨500, "boom"⟩) = .error ⟨500, "boom"⟩ ∧
    executeStopServer (.error ⟨404, "gone"⟩) = .ok () :=
  ⟨executeStopServer_spec.2.2.2 ⟨500, "boom"⟩ (by decide) (by decide),
   executeStopServer_spec.2.1 "gone"⟩

/-! ## Cluster id (`generateClusterId`, controller `addServer`)

`generateClusterId` replaces every `x`/`y` of the fixed template with a
hex digit computed from one `Math.random() * 16 | 0` draw; the `i`-th
draw is modelled as `rand i % 16`.  The controller regenerates the id
when the supplied value is falsy (absent or empty) or equals `"new"`
case-insensitively. -/

/-- The sixteen lowercase hex digits. -/
def hexChars : List Char := "0123456789abcdef".toList

/-- Lowercase hex digit, as produced by `Number.prototype.toString(16)`
for values `0..15`. -/
def hexDigit (n : Nat) : Char :=
  hexChars.getD n '0'

/-- The template string `xxxxxxxx-xxxx-4xxx-yxxx-xxxxxxxxxxxx`. -/
def uuidTemplate : List Char :=
  ['x', 'x', 'x', 'x', 'x', 'x', 'x', 'x', '-',
   'x', 'x', 'x', 'x', '-',
   '4', 'x', 'x', 'x', '-',
   'y', 'x', 'x', 'x', '-',
   'x', 'x', 'x', 'x', 'x', 'x', 'x', 'x', 'x', 'x', 'x', 'x']

/-- The `replace(/[xy]/g, c => ...)` callback, applied left to right;
only matched characters consume a random draw. -/
def fillTemplate (rand : Nat → Nat) : Nat → List Char → List Char
  | _, [] => []
  | i, c :: rest =>
    if c = 'x' then hexDigit (rand i % 16) :: fillTemplate rand (i + 1) rest
    else if c = 'y' then
      hexDigit ((rand i % 16) &&& 3 ||| 8) :: fillTemplate rand (i + 1) rest
    else c :: fillTemplate rand i rest

/-- `generateClusterId` from `dockerService.js`. -/
def generateClusterId (rand : Nat → Nat) : List Char :=
  fillTemplate rand 0 uuidTemplate

/-- JS `String.prototype.toLowerCase`, on the character data. -/
def jsToLower (s : String) : String :=
  ⟨s.data.map Char.toLower⟩

/-- Cluster-id resolution of the controller's `addServer`:
`!CLUSTER_ID || CLUSTER_ID.toLowerCase() === 'new'` regenerates. -/
def resolveClusterId (given : Option String) (rand : Nat → Nat) : String :=
  match given with
  | none => ⟨generateClusterId rand⟩
  | some s =>
    if s = "" ∨ jsToLower s = "new" then ⟨generateClusterId rand⟩ else s

theorem hexDigit_mem (m : Nat) :
    hexDigit (m % 16) ∈
      hexChars := by
  have hlt : m % 16 < 16 := Nat.mod_lt _ (by norm_num)
  revert hlt
  generalize m % 16 = k
  revert k
  decide

theorem variant_digit_mem (m : Nat) :
    hexDigit ((m % 16) &&& 3 ||| 8) ∈ ['8', '9', 'a', 'b'] := by
  have hlt : m % 16 < 16 := Nat.mod_lt _ (by norm_num)
  revert hlt
  generalize m % 16 = k
  revert k
  decide

theorem variant_digit_mem_hex (m : Nat) :
    hexDigit ((m % 16) &&& 3 ||| 8) ∈
      hexChars := by
  have hlt : m % 16 < 16 := Nat.mod_lt _ (by norm_num)
  revert hlt
  generalize m % 16 = k
  revert k
  decide

/-- C9: resolution returns a supplied id verbatim unless it is empty or
the sentinel `"new"` (case-insensitive), in which cases — as when no id
is supplied — a generated id is returned; every generated id has
UUID-v4 shape: 36 characters, dashes at positions 8/13/18/23, version
nibble `'4'` at position 14, variant nibble in `{8,9,a,b}` at position
19, lowercase hex digits everywhere else, each non-fixed nibble coming
from its own random draw (31 draws, 122 random bits). -/
theorem clusterId_resolution_spec :
    (∀ (s : String) rand, s ≠ "" → jsToLower s ≠ "new" →
      resolveClusterId (some s) rand = s) ∧
    (∀ rand, resolveClusterId none rand = ⟨generateClusterId rand⟩ ∧
      resolveClusterId (some "new") rand = ⟨generateClusterId rand⟩ ∧
      resolveClusterId (some "NEW") rand = ⟨generateClusterId rand⟩ ∧
      resolveClusterId (some "") rand = ⟨generateClusterId rand⟩) ∧
    ∀ rand,
      (generateClusterId rand).length = 36 ∧
      (generateClusterId rand).getD 8 ' ' = '-' ∧
      (generateClusterId rand).getD 13 ' ' = '-' ∧
      (generateClusterId rand).getD 18 ' ' = '-' ∧
      (generateClusterId rand).getD 23 ' ' = '-' ∧
      (generateClusterId rand).getD 14 ' ' = '4' ∧
      (generateClusterId rand).getD 19 ' ' ∈ ['8', '9', 'a', 'b'] ∧
      (generateClusterId rand).getD 0 ' ' = hexDigit (rand 0 % 16) ∧
      (generateClusterId rand).getD 19 ' ' =
        hexDigit ((rand 15 % 16) &&& 3 ||| 8) ∧
      (generateClusterId rand).getD 35 ' ' = hexDigit (rand 30 % 16) ∧
      ∀ c ∈ generateClusterId rand,
        c ∈ hexChars ∨ c = '-' := by
  refine ⟨?_, ?_, ?_⟩
  · intro s rand hne hnew
    simp [resolveClusterId, hne, hnew]
  · intro rand
    refine ⟨rfl, ?_, ?_, ?_⟩ <;>
      simp [resolveClusterId, show jsToLower "new" = "new" from by decide,
        show jsToLower "NEW" = "new" from by decide,
        show jsToLower "" = "" from by decide]
  · intro rand
    have hexp : generateClusterId rand =
        [hexDigit (rand 0 % 16), hexDigit (rand 1 % 16),
         hexDigit (rand 2 % 16), hexDigit (rand 3 % 16),
         hexDigit (rand 4 % 16), hexDigit (rand 5 % 16),
         hexDigit (rand 6 % 16), hexDigit (rand 7 % 16), '-',
         hexDigit (rand 8 % 16), hexDigit (rand 9 % 16),
         hexDigit (rand 10 % 16), hexDigit (rand 11 % 16), '-',
         '4', hexDigit (rand 12 % 16), hexDigit (rand 13 % 16),
         hexDigit (rand 14 % 16), '-',
         hexDigit ((rand 15 % 16) &&& 3 ||| 8), hexDigit (rand 16 % 16),
         hexDigit (rand 17 % 16), hexDigit (rand 18 % 16), '-',
         hexDigit (rand 19 % 16), hexDigit (rand 20 % 16),
         hexDigit (rand 21 % 16), hexDigit (rand 22 % 16),
         hexDigit (rand 23 % 16), hexDigit (rand 24 % 16),
         hexDigit (rand 25 % 16), hexDigit (rand 26 % 16),
         hexDigit (rand 27 % 16), hexDigit (rand 28 % 16),
         hexDigit (rand 29 % 16), hexDigit (rand 30 % 16)] := by
      simp [generateClusterId, uuidTemplate, fillTemplate]
    rw [hexp]
    refine ⟨rfl, rfl, rfl, rfl, rfl, rfl, variant_digit_mem _, rfl, rfl, rfl, ?_⟩
    intro c hc
    simp only [List.mem_cons, List.not_mem_nil, or_false] at hc
    rcases hc with rfl | rfl | rfl | rfl | rfl | rfl | rfl | rfl | rfl | rfl |
      rfl | rfl | rfl | rfl | rfl | rfl | rfl | rfl | rfl | rfl | rfl | rfl |
      rfl | rfl | rfl | rfl | rfl | rfl | rfl | rfl | rfl | rfl | rfl | rfl |
      rfl | rfl
    all_goals first
      | exact Or.inl (hexDigit_mem _)
      | exact Or.inr rfl
      | exact Or.inl (variant_digit_mem_hex _)
      | exact Or.inl (by decide)

/-- C9 witness: a concrete non-empty, non-sentinel id is kept verbatim. -/
theorem clusterId_resolution_spec_witness :
    resolveClusterId (some "MyCluster") (fun _ => 0) = "MyCluster" :=
  clusterId_resolution_spec.1 "MyCluster" (fun _ => 0)
    (by decide) (by decide)

/-! ## Shared state store (`utils/cache.js`, `monitorsService.js`)

`cache.serversStatus` and `cache.containersStats` are JS objects keyed
by server name; they are modelled as association lists (insertion
order preserved, one entry per key).  `cache.serversStatus[name] =
{...old, ...updates}` is a single-key assignment of a spread-merge. -/

/-- Server status values used by the source. -/
inductive Status
  | off
  | startup
  | running
  | error
  | unknown
  deriving DecidableEq, Repr

/-- One entry of `cache.serversStatus`.  `'N/A'` values are `none`. -/
structure StatusEntry where
  SERVER_NAME : String
  status : Status
  detectedState : Status
  CPU_USAGE : Option ℚ
  MEMORY_USAGE : Option (Nat × Nat)
  initialStatsSent : Bool
  errorDetail : Option String
  deriving DecidableEq, Repr

/-- One entry of `cache.containersStats`. -/
structure ContainerStats where
  name : String
  CPU_USAGE : ℚ
  MEMORY_USAGE : Nat × Nat
  deriving DecidableEq, Repr

/-- An `updates` object passed to `setServerStatus`: `none` means the
key is absent from the update object. -/
structure StatusUpdates where
  status : Option Status := none
  detectedState : Option Status := none
  CPU_USAGE : Option (Option ℚ) := none
  MEMORY_USAGE : Option (Option (Nat × Nat)) := none
  initialStatsSent : Option Bool := none
  errorDetail : Option (Option String) := none
  deriving DecidableEq, Repr

/-- The entry created by `setServerStatus` when the server name is not
yet cached. -/
def defaultEntry (name : String) : StatusEntry :=
  { SERVER_NAME := name, status := .off, detectedState := .off,
    CPU_USAGE := none, MEMORY_USAGE := none,
    initialStatsSent := false, errorDetail := none }

/-- The spread-merge `{...existing, ...updates}`. -/
def applyUpdates (e : StatusEntry) (u : StatusUpdates) : StatusEntry :=
  { SERVER_NAME := e.SERVER_NAME,
    status := u.status.getD e.status,
    detectedState := u.detectedState.getD e.detectedState,
    CPU_USAGE := u.CPU_USAGE.getD e.CPU_USAGE,
    MEMORY_USAGE := u.MEMORY_USAGE.getD e.MEMORY_USAGE,
    initialStatsSent := u.initialStatsSent.getD e.initialStatsSent,
    errorDetail := u.errorDetail.getD e.errorDetail }

/-- JS object property read `m[k]`. -/
def objGet {α : Type} : List (String × α) → String → Option α
  | [], _ => none
  | (k, v) :: t, key => if key = k then some v else objGet t key

/-- Overwrite the value stored under key `k`. -/
def objOverwrite {α : Type} :
    List (String × α) → String → (α → α) → List (String × α)
  | [], _, _ => []
  | (ak, av) :: t, k, f =>
    (if ak = k then (ak, f av) else (ak, av)) :: objOverwrite t k f

/-- JS object property write `m[k] = v`: overwrite when present, append
a new property otherwise. -/
def objSet {α : Type} (m : List (String × α)) (k : String) (v : α) :
    List (String × α) :=
  match objGet m k with
  | some _ => objOverwrite m k (fun _ => v)
  | none => m ++ [(k, v)]

/-- JS `delete m[k]`. -/
def objDelete {α : Type} (m : List (String × α)) (k : String) :
    List (String × α) :=
  m.filter (fun kv => kv.1 != k)

/-- `setServerStatus` from `monitorsService.js`: lazily create the
default entry, then merge the named updates into it. -/
def setServerStatus (m : List (String × StatusEntry)) (name : String)
    (u : StatusUpdates) : List (String × StatusEntry) :=
  let m1 :=
    match objGet m name with
    | some _ => m
    | none => m ++ [(name, defaultEntry name)]
  objOverwrite m1 name (fun e => applyUpdates e u)

theorem objGet_overwrite {α : Type} (m : List (String × α)) (k key : String)
    (f : α → α) :
    objGet (objOverwrite m k f) key =
      if key = k then (objGet m key).map f else objGet m key := by
  induction m with
  | nil => simp [objGet, objOverwrite]
  | cons a t ih =>
    obtain ⟨ak, av⟩ := a
    rw [objOverwrite]
    by_cases h1 : ak = k
    · rw [if_pos h1]
      by_cases h2 : key = ak
      · simp only [objGet, if_pos h2]
        rw [if_pos (h2.trans h1)]
        rfl
      · simp only [objGet, if_neg h2]
        rw [ih]
    · rw [if_neg h1]
      by_cases h2 : key = ak
      · simp only [objGet, if_pos h2]
        rw [if_neg (by rw [h2]; exact h1)]
      · simp only [objGet, if_neg h2]
        rw [ih]

theorem keys_objOverwrite {α : Type} (m : List (String × α)) (k : String)
    (f : α → α) :
    (objOverwrite m k f).map Prod.fst = m.map Prod.fst := by
  induction m with
  | nil => rfl
  | cons a t ih =>
    obtain ⟨ak, av⟩ := a
    rw [objOverwrite]
    by_cases h : ak = k
    · rw [if_pos h]
      simp [ih]
    · rw [if_neg h]
      simp [ih]

theorem objGet_append_single {α : Type} (m : List (String × α))
    (k key : String) (v : α) :
    objGet (m ++ [(k, v)]) key =
      match objGet m key with
      | some w => some w
      | none => if key = k then some v else none := by
  induction m with
  | nil => simp [objGet]
  | cons a t ih =>
    obtain ⟨ak, av⟩ := a
    by_cases h : key = ak <;> simp [objGet, h, ih]

theorem objGet_eq_none_iff {α : Type} (m : List (String × α)) (key : String) :
    objGet m key = none ↔ key ∉ m.map Prod.fst := by
  induction m with
  | nil => simp [objGet]
  | cons a t ih =>
    obtain ⟨ak, av⟩ := a
    by_cases h : key = ak <;> simp [objGet, h, ih]

theorem setServerStatus_objGet_self (m : List (String × StatusEntry))
    (name : String) (u : StatusUpdates) :
    objGet (setServerStatus m name u) name =
      some (applyUpdates ((objGet m name).getD (defaultEntry name)) u) := by
  unfold setServerStatus
  cases h : objGet m name with
  | some e =>
    rw [objGet_overwrite, if_pos rfl, h]
    rfl
  | none =>
    rw [objGet_overwrite, if_pos rfl, objGet_append_single, h]
    simp

theorem setServerStatus_objGet_other (m : List (String × StatusEntry))
    (name : String) (u : StatusUpdates) (k : String) (hk : k ≠ name) :
    objGet (setServerStatus m name u) k = objGet m k := by
  unfold setServerStatus
  cases h : objGet m name with
  | some e => rw [objGet_overwrite, if_neg hk]
  | none =>
    rw [objGet_overwrite, if_neg hk, objGet_append_single]
    cases hg : objGet m k with
    | some w => rfl
    | none => simp [hk]

theorem setServerStatus_keys (m : List (String × StatusEntry))
    (name : String) (u : StatusUpdates) :
    (setServerStatus m name u).map Prod.fst =
      match objGet m name with
      | some _ => m.map Prod.fst
      | none => m.map Prod.fst ++ [name] := by
  unfold setServerStatus
  cases h : objGet m name with
  | some e => rw [keys_objOverwrite]
  | none =>
    rw [keys_objOverwrite]
    simp

/-- C10: `setServerStatus` is a merge, not a replacement: a missing
entry is first created with status `off`, detectedState `off`,
CPU/memory `'N/A'` and `initialStatsSent = false`; then exactly the
fields named in the update overwrite the existing entry and all other
fields are untouched; other servers' entries are untouched; and after
the write there is still exactly one entry per observed server name. -/
theorem setServerStatus_merge_spec (m : List (String × StatusEntry))
    (name : String) (u : StatusUpdates)
    (hnd : (m.map Prod.fst).Nodup) :
    ((setServerStatus m name u).map Prod.fst).Nodup ∧
    ((setServerStatus m name u).map Prod.fst).count name = 1 ∧
    (∀ k, k ∈ (setServerStatus m name u).map Prod.fst ↔
      k ∈ m.map Prod.fst ∨ k = name) ∧
    (∀ k, k ≠ name → objGet (setServerStatus m name u) k = objGet m k) ∧
    objGet (setServerStatus m name u) name =
      some (applyUpdates ((objGet m name).getD (defaultEntry name)) u) ∧
    defaultEntry name =
      ⟨name, .off, .off, none, none, false, none⟩ ∧
    (∀ e : StatusEntry,
      (applyUpdates e u).SERVER_NAME = e.SERVER_NAME ∧
      (u.status = none → (applyUpdates e u).status = e.status) ∧
      (∀ v, u.status = some v → (applyUpdates e u).status = v) ∧
      (u.detectedState = none →
        (applyUpdates e u).detectedState = e.detectedState) ∧
      (∀ v, u.detectedState = some v → (applyUpdates e u).detectedState = v) ∧
      (u.CPU_USAGE = none → (applyUpdates e u).CPU_USAGE = e.CPU_USAGE) ∧
      (∀ v, u.CPU_USAGE = some v → (applyUpdates e u).CPU_USAGE = v) ∧
      (u.MEMORY_USAGE = none →
        (applyUpdates e u).MEMORY_USAGE = e.MEMORY_USAGE) ∧
      (∀ v, u.MEMORY_USAGE = some v → (applyUpdates e u).MEMORY_USAGE = v) ∧
      (u.initialStatsSent = none →
        (applyUpdates e u).initialStatsSent = e.initialStatsSent) ∧
      (∀ v, u.initialStatsSent = some v →
        (applyUpdates e u).initialStatsSent = v) ∧
      (u.errorDetail = none →
        (applyUpdates e u).errorDetail = e.errorDetail) ∧
      (∀ v, u.errorDetail = some v → (applyUpdates e u).errorDetail = v)) := by
  have hkeys := setServerStatus_keys m name u
  refine ⟨?_, ?_, ?_, setServerStatus_objGet_other m name u,
    setServerStatus_objGet_self m name u, rfl, ?_⟩
  · cases h : objGet m name with
    | some e => rw [hkeys, h]; exact hnd
    | none =>
      rw [hkeys, h]
      have hmem : name ∉ m.map Prod.fst := (objGet_eq_none_iff m name).1 h
      simp [List.nodup_append, hnd, hmem]
  · cases h : objGet m name with
    | some e =>
      rw [hkeys, h]
      have hne : objGet m name ≠ none := by rw [h]; exact Option.some_ne_none e
      have hmem : name ∈ m.map Prod.fst := by
        by_contra hc
        exact hne ((objGet_eq_none_iff m name).2 hc)
      exact List.count_eq_one_of_mem hnd hmem
    | none =>
      rw [hkeys, h]
      have hmem : name ∉ m.map Prod.fst := (objGet_eq_none_iff m name).1 h
      rw [List.count_append]
      rw [List.count_eq_zero_of_not_mem hmem]
      simp
  · intro k
    cases h : objGet m name with
    | some e =>
      rw [hkeys, h]
      have hne : objGet m name ≠ none := by rw [h]; exact Option.some_ne_none e
      have hmem : name ∈ m.map Prod.fst := by
        by_contra hc
        exact hne ((objGet_eq_none_iff m name).2 hc)
      constructor
      · exact Or.inl
      · rintro (hk | rfl)
        · exact hk
        · exact hmem
    | none =>
      rw [hkeys, h]
      simp
  · intro e
    refine ⟨rfl, ?_, ?_, ?_, ?_, ?_, ?_, ?_, ?_, ?_, ?_, ?_, ?_⟩ <;>
      first
        | (intro h; simp [applyUpdates, h])
        | (intro v h; simp [applyUpdates, h])

/-- C10 witness: writing an empty update into an empty cache creates
exactly one entry. -/
theorem setServerStatus_merge_spec_witness :
    ((setServerStatus [] "A" {}).map Prod.fst).count "A" = 1 :=
  (setServerStatus_merge_spec [] "A" {} (by simp)).2.1

/-! ## Stats stream consumption (`monitorsService.consumeStatsStream`)

Events pushed through `broadcastImmediateEvent`; the handler for one
`data` chunk updates `containersStats`, broadcasts the container stats,
and on the first sample while the cached status is `startup`/`running`
with `initialStatsSent` unset, flips the flag and broadcasts a
`running` status. -/

/-- A broadcast WebSocket event (the `monitoring` envelope). -/
inductive WsEvent
  | statusEvent (target : String) (data : StatusEntry)
  | statsEvent (target : String) (data : ContainerStats)
  | logEvent (target : String) (message : String) (source : String)
  deriving DecidableEq, Repr

/-- The mutable state touched by the monitors service. -/
structure MonState where
  serversStatus : List (String × StatusEntry)
  containersStats : List (String × ContainerStats)
  deriving DecidableEq, Repr

/-- `updateAndNotifyStatus` from `monitorsService.js`: merge the new
status (with stats pulled from `containersStats`, `'N/A'` when absent,
and optional extra `error` data) into the cache, then broadcast the
complete updated entry. -/
def updateAndNotifyStatus (st : MonState) (name : String) (status : Status)
    (extraError : Option (Option String)) : MonState × WsEvent :=
  let containerStats := objGet st.containersStats name
  let u : StatusUpdates :=
    { status := some status,
      detectedState := some status,
      CPU_USAGE := some (containerStats.map (·.CPU_USAGE)),
      MEMORY_USAGE := some (containerStats.map (·.MEMORY_USAGE)),
      initialStatsSent := none,
      errorDetail := extraError }
  let ss := setServerStatus st.serversStatus name u
  ({ st with serversStatus := ss },
   .statusEvent name ((objGet ss name).getD (defaultEntry name)))

/-- The `data` handler of `consumeStatsStream`: store the sample,
broadcast it, and on the first sample in `startup`/`running` with the
flag unset, set `initialStatsSent` and broadcast `running`. -/
def onStatsData (st : MonState) (name : String) (cpu : ℚ)
    (mem : Nat × Nat) : MonState × List WsEvent :=
  let cs : ContainerStats := ⟨name, cpu, mem⟩
  let st1 : MonState :=
    { st with containersStats := objSet st.containersStats name cs }
  let ev1 := WsEvent.statsEvent name cs
  match objGet st1.serversStatus name with
  | some e =>
    if (e.status = .startup ∨ e.status = .running) ∧
        e.initialStatsSent = false then
      let u1 : StatusUpdates := { initialStatsSent := some true }
      let st2 : MonState :=
        { st1 with serversStatus := setServerStatus st1.serversStatus name u1 }
      let r := updateAndNotifyStatus st2 name .running none
      (r.1, [ev1, r.2])
    else (st1, [ev1])
  | none => (st1, [ev1])

theorem onStatsData_trigger (st : MonState) (name : String) (cpu : ℚ)
    (mem : Nat × Nat) (e : StatusEntry)
    (hl : objGet st.serversStatus name = some e)
    (hs : e.status = .startup ∨ e.status = .running)
    (hn : e.initialStatsSent = false) :
    onStatsData st name cpu mem =
      (let st1 : MonState :=
        { st with containersStats :=
            objSet st.containersStats name ⟨name, cpu, mem⟩ }
       let u1 : StatusUpdates := { initialStatsSent := some true }
       let st2 : MonState :=
        { st1 with serversStatus := setServerStatus st1.serversStatus name u1 }
       let r := updateAndNotifyStatus st2 name .running none
       (r.1, [WsEvent.statsEvent name ⟨name, cpu, mem⟩, r.2])) := by
  simp only [onStatsData, hl]
  rw [if_pos ⟨hs, hn⟩]

theorem onStatsData_no_trigger (st : MonState) (name : String) (cpu : ℚ)
    (mem : Nat × Nat) (e : StatusEntry)
    (hl : objGet st.serversStatus name = some e)
    (hcond : ¬((e.status = .startup ∨ e.status = .running) ∧
      e.initialStatsSent = false)) :
    onStatsData st name cpu mem =
      ({ st with containersStats := objSet st.containersStats name ⟨name, cpu, mem⟩ },
       [WsEvent.statsEvent name ⟨name, cpu, mem⟩]) := by
  simp only [onStatsData, hl]
  rw [if_neg hcond]

/-- C6: the first processed stats sample for a server cached as
`startup` or `running` with `initialStatsSent` unset updates the cached
status to `running`, sets the flag, and broadcasts a `running` status
event; a second sample then broadcasts only its stats event and leaves
the `running` status in place. -/
theorem firstStats_confirms_running (st : MonState) (name : String)
    (cpu cpu2 : ℚ) (mem mem2 : Nat × Nat) (e : StatusEntry)
    (hl : objGet st.serversStatus name = some e)
    (hs : e.status = .startup ∨ e.status = .running)
    (hn : e.initialStatsSent = false) :
    ((objGet (onStatsData st name cpu mem).1.serversStatus name).map
        (·.status) = some .running) ∧
    ((objGet (onStatsData st name cpu mem).1.serversStatus name).map
        (·.initialStatsSent) = some true) ∧
    (∃ d, WsEvent.statusEvent name d ∈ (onStatsData st name cpu mem).2 ∧
      d.status = .running ∧ d.initialStatsSent = true) ∧
    ((onStatsData (onStatsData st name cpu mem).1 name cpu2 mem2).2 =
      [WsEvent.statsEvent name ⟨name, cpu2, mem2⟩]) ∧
    ((objGet (onStatsData (onStatsData st name cpu mem).1 name cpu2
        mem2).1.serversStatus name).map (·.status) = some .running) := by
  rw [onStatsData_trigger st name cpu mem e hl hs hn]
  dsimp only
  set st1 : MonState :=
    { st with containersStats :=
        objSet st.containersStats name ⟨name, cpu, mem⟩ } with hst1
  have hl1 : objGet st1.serversStatus name = some e := hl
  set u1 : StatusUpdates := { initialStatsSent := some true } with hu1
  have h2 : objGet (setServerStatus st1.serversStatus name u1) name =
      some (applyUpdates e u1) := by
    rw [setServerStatus_objGet_self, hl1]
    rfl
  set e2 := applyUpdates e u1 with he2
  simp only [updateAndNotifyStatus]
  set u2 : StatusUpdates :=
    { status := some Status.running,
      detectedState := some Status.running,
      CPU_USAGE := some ((objGet st1.containersStats name).map (·.CPU_USAGE)),
      MEMORY_USAGE := some ((objGet st1.containersStats name).map
        (·.MEMORY_USAGE)),
      initialStatsSent := none,
      errorDetail := none } with hu2
  have h3 : objGet (setServerStatus (setServerStatus st1.serversStatus name u1)
      name u2) name = some (applyUpdates e2 u2) := by
    rw [setServerStatus_objGet_self, h2]
    rfl
  have hst3 : (applyUpdates e2 u2).status = Status.running := rfl
  have hsent3 : (applyUpdates e2 u2).initialStatsSent = true := by
    simp [applyUpdates, he2, hu1, hu2]
  refine ⟨?_, ?_, ?_, ?_, ?_⟩
  · rw [h3]
    simp [hst3]
  · rw [h3]
    simp [hsent3]
  · refine ⟨applyUpdates e2 u2, ?_, hst3, hsent3⟩
    rw [h3]
    simp
  · rw [onStatsData_no_trigger _ name cpu2 mem2 (applyUpdates e2 u2) h3
      (by simp [hsent3])]
  · rw [onStatsData_no_trigger _ name cpu2 mem2 (applyUpdates e2 u2) h3
      (by simp [hsent3])]
    dsimp only
    rw [h3]
    simp [hst3]

/-- C6 witness: a concrete `startup` entry receiving its first sample. -/
theorem firstStats_confirms_running_witness :
    (objGet (onStatsData
        ⟨[("A", ⟨"A", .startup, .startup, none, none, false, none⟩)], []⟩
        "A" 5 (100, 200)).1.serversStatus "A").map (·.status) =
      some .running :=
  (firstStats_confirms_running
    ⟨[("A", ⟨"A", .startup, .startup, none, none, false, none⟩)], []⟩
    "A" 5 7 (100, 200) (300, 400)
    ⟨"A", .startup, .startup, none, none, false, none⟩
    (by rfl) (Or.inl rfl) rfl).1

/-! ## Stats stream end / error handlers (`consumeStatsStream`)

After their cache work, both handlers evaluate `statsData.containerId`,
but `statsData` is only in scope inside the `data` handler: per JS
semantics, reading an undeclared identifier throws a `ReferenceError`
that escapes the handler.  Each handler is modelled as the mutated
state (mutations before the throw persist) together with the escaped
exception, if any. -/

/-- The `end` handler: keep the cached container stats (keep-last
policy), reset `initialStatsSent` when the server is cached, then hit
the out-of-scope `statsData` read. -/
def onStatsEnd (st : MonState) (name : String) : MonState × Option String :=
  let st1 : MonState :=
    match objGet st.serversStatus name with
    | some _ =>
      { st with serversStatus := setServerStatus st.serversStatus name ⟨none, none, none, none, some false, none⟩ }
    | none => st
  (st1, some "ReferenceError: statsData is not defined")

/-- The `error` handler: delete the cached container stats, broadcast
an `unknown` status carrying `error: 'Stats stream failed'`, then hit
the out-of-scope `statsData` read. -/
def onStatsError (st : MonState) (name : String) :
    MonState × WsEvent × Option String :=
  let st1 : MonState :=
    { st with containersStats := objDelete st.containersStats name }
  let r := updateAndNotifyStatus st1 name .unknown (some (some "Stats stream failed"))
  (r.1, r.2, some "ReferenceError: statsData is not defined")

/-- C7 (code bug): on a concrete running server, the `end` handler
keeps the last container stats and resets the first-sample flag, and
the `error` handler clears the cached stats and broadcasts an `unknown`
status carrying the failure — but both handlers then unconditionally
raise `ReferenceError` (the out-of-scope `statsData.containerId` read),
contradicting the claim that they terminate without throwing. -/
theorem statsStream_end_error_behavior :
    ((onStatsEnd
        ⟨[("A", ⟨"A", .running, .running, some 5, some (1, 2), true, none⟩)],
         [("A", ⟨"A", 5, (1, 2)⟩)]⟩ "A").1.containersStats =
      [("A", ⟨"A", 5, (1, 2)⟩)] ∧
     (objGet (onStatsEnd
        ⟨[("A", ⟨"A", .running, .running, some 5, some (1, 2), true, none⟩)],
         [("A", ⟨"A", 5, (1, 2)⟩)]⟩ "A").1.serversStatus "A").map
        (·.initialStatsSent) = some false ∧
     (onStatsEnd
        ⟨[("A", ⟨"A", .running, .running, some 5, some (1, 2), true, none⟩)],
         [("A", ⟨"A", 5, (1, 2)⟩)]⟩ "A").2 =
      some "ReferenceError: statsData is not defined") ∧
    (objGet (onStatsError
        ⟨[("A", ⟨"A", .running, .running, some 5, some (1, 2), true, none⟩)],
         [("A", ⟨"A", 5, (1, 2)⟩)]⟩ "A").1.containersStats "A" = none ∧
     (objGet (onStatsError
        ⟨[("A", ⟨"A", .running, .running, some 5, some (1, 2), true, none⟩)],
         [("A", ⟨"A", 5, (1, 2)⟩)]⟩ "A").1.serversStatus "A").map (·.status) =
      some .unknown ∧
     (∃ d, (onStatsError
        ⟨[("A", ⟨"A", .running, .running, some 5, some (1, 2), true, none⟩)],
         [("A", ⟨"A", 5, (1, 2)⟩)]⟩ "A").2.1 = WsEvent.statusEvent "A" d ∧
        d.status = .unknown ∧ d.errorDetail = some "Stats stream failed") ∧
     (onStatsError
        ⟨[("A", ⟨"A", .running, .running, some 5, some (1, 2), true, none⟩)],
         [("A", ⟨"A", 5, (1, 2)⟩)]⟩ "A").2.2 =
      some "ReferenceError: statsData is not defined") ∧
    ∀ st name, (onStatsEnd st name).2.isSome ∧
      (onStatsError st name).2.2.isSome := by
  refine ⟨⟨by decide, by decide, by decide⟩,
    ⟨by decide, by decide, ⟨_, rfl, by decide, by decide⟩, by decide⟩,
    fun st name => ⟨rfl, rfl⟩⟩

/-! ## Status reconciliation (`fetchAllServersStatus`, RCON liveness)

Per server: read the cached status (`?.status || 'off'`), probe via
`rconService.getPlayersCount` (a count on success, `null` on failure),
and decide the display status by priority; the player count is attached
when the probe responded, `'N/A'` otherwise. -/

/-- The per-server display-status decision of `fetchAllServersStatus`.
`probe` is the `getPlayersCount` result (`none` = RCON not
responding). -/
def resolveDisplayStatus (cached : Option StatusEntry)
    (probe : Option Nat) : Status :=
  let cachedStatus := (cached.map (·.status)).getD .off
  if cachedStatus = .error then .error
  else if probe.isSome then .running
  else if cachedStatus = .startup then .startup
  else .off

/-- The per-server result row: reconciled status and `PLAYER_COUNT`
(`isRconResponding ? playerCountResult : 'N/A'`). -/
def reconcileServer (cached : Option StatusEntry) (probe : Option Nat) :
    Status × Option Nat :=
  (resolveDisplayStatus cached probe, if probe.isSome then probe else none)

/-- C1: the reconciliation priority order — cached `error` is sticky; a
responding probe otherwise forces `running`; a silent probe shows
cached `startup` as `startup` and anything else as `off`; the player
count is attached exactly when the probe responded. -/
theorem statusReconciliation_spec (cached : Option StatusEntry)
    (probe : Option Nat) :
    ((cached.map (·.status)).getD .off = .error →
      (reconcileServer cached probe).1 = .error) ∧
    ((cached.map (·.status)).getD .off ≠ .error → probe ≠ none →
      (reconcileServer cached probe).1 = .running) ∧
    ((cached.map (·.status)).getD .off ≠ .error → probe = none →
      (cached.map (·.status)).getD .off = .startup →
      (reconcileServer cached probe).1 = .startup) ∧
    ((cached.map (·.status)).getD .off ≠ .error → probe = none →
      (cached.map (·.status)).getD .off ≠ .startup →
      (reconcileServer cached probe).1 = .off) ∧
    (∀ n, probe = some n → (reconcileServer cached probe).2 = some n) ∧
    (probe = none → (reconcileServer cached probe).2 = none) := by
  refine ⟨?_, ?_, ?_, ?_, ?_, ?_⟩
  · intro h
    simp [reconcileServer, resolveDisplayStatus, h]
  · intro h hp
    rw [show (reconcileServer cached probe).1 =
        resolveDisplayStatus cached probe from rfl]
    unfold resolveDisplayStatus
    rw [if_neg h, if_pos (Option.isSome_iff_ne_none.2 hp)]
  · intro h hp hs
    subst hp
    rw [show (reconcileServer cached none).1 =
        resolveDisplayStatus cached none from rfl]
    unfold resolveDisplayStatus
    rw [if_neg h]
    simp [hs]
  · intro h hp hs
    subst hp
    rw [show (reconcileServer cached none).1 =
        resolveDisplayStatus cached none from rfl]
    unfold resolveDisplayStatus
    rw [if_neg h]
    simp [hs]
  · intro n hp
    subst hp
    rfl
  · intro hp
    subst hp
    rfl

/-- C1 witness: cached `error` with a responding probe stays `error`;
cached `startup` with a responding probe becomes `running`. -/
theorem statusReconciliation_spec_witness :
    (reconcileServer (some ⟨"A", .error, .error, none, none, false, none⟩)
      (some 3)).1 = .error ∧
    (reconcileServer (some ⟨"A", .startup, .startup, none, none, false, none⟩)
      (some 3)).1 = .running :=
  ⟨(statusReconciliation_spec
      (some ⟨"A", .error, .error, none, none, false, none⟩) (some 3)).1
      (by decide),
   (statusReconciliation_spec
      (some ⟨"A", .startup, .startup, none, none, false, none⟩) (some 3)).2.1
      (by decide) (by decide)⟩

/-! ## Docker log keyword scanner (`monitorsService.monitorDockerLogs`)

Each log line runs through the ordered `{keyword, state}` table; the
first match of a fresh state label records it in the `detected` set and
broadcasts one `log` event; matching the hard-coded final keyword also
closes the readline interface and returns from the handler, and a
closed interface ignores further lines. -/

/-- One `{keyword, state}` rule of the bootstrap keyword table. -/
structure KeywordRule where
  keyword : String
  state : String
  deriving DecidableEq, Repr

def listStartsWith : List Char → List Char → Bool
  | _, [] => true
  | [], _ :: _ => false
  | a :: as, b :: bs => a = b && listStartsWith as bs

def listContainsSub : List Char → List Char → Bool
  | [], pat => pat.isEmpty
  | l@(_ :: as), pat => listStartsWith l pat || listContainsSub as pat

/-- JS `line.includes(keyword)`. -/
def strIncludes (line keyword : String) : Bool :=
  listContainsSub line.data keyword.data

/-- Scanner state of one `monitorDockerLogs` session: whether the
readline interface is closed and the set of already-detected labels. -/
structure LogWatchState where
  closed : Bool
  detected : List String
  deriving DecidableEq, Repr

def freshLogWatch : LogWatchState := ⟨false, []⟩

/-- The `for (const {keyword, state} of dockerKeywords)` loop over one
line: first fresh match broadcasts one log event; the final keyword
closes the interface and returns from the handler. -/
def scanLineEntries (name finalKeyword line : String) :
    List KeywordRule → LogWatchState → LogWatchState × List WsEvent
  | [], s => (s, [])
  | r :: rest, s =>
    if strIncludes line r.keyword = true ∧ r.state ∉ s.detected then
      let s1 : LogWatchState := ⟨s.closed, r.state :: s.detected⟩
      let ev := WsEvent.logEvent name r.state "docker"
      if r.keyword = finalKeyword then (⟨true, s1.detected⟩, [ev])
      else
        let res := scanLineEntries name finalKeyword line rest s1
        (res.1, ev :: res.2)
    else scanLineEntries name finalKeyword line rest s

/-- The `line` handler: a closed interface processes nothing. -/
def processLogLine (name finalKeyword : String) (table : List KeywordRule)
    (s : LogWatchState) (line : String) : LogWatchState × List WsEvent :=
  if s.closed = true then (s, [])
  else scanLineEntries name finalKeyword line table s

theorem scan_detected_mono (name fk line : String) :
    ∀ (table : List KeywordRule) (s : LogWatchState) (lbl : String),
      lbl ∈ s.detected →
      lbl ∈ (scanLineEntries name fk line table s).1.detected := by
  intro table
  induction table with
  | nil => intro s lbl h; exact h
  | cons r rest ih =>
    intro s lbl h
    unfold scanLineEntries
    split
    · split
      · exact List.mem_cons_of_mem _ h
      · exact ih ⟨s.closed, r.state :: s.detected⟩ lbl (List.mem_cons_of_mem _ h)
    · exact ih s lbl h

theorem scan_no_event_of_detected (name fk line : String) :
    ∀ (table : List KeywordRule) (s : LogWatchState) (lbl src : String),
      lbl ∈ s.detected →
      WsEvent.logEvent name lbl src ∉ (scanLineEntries name fk line table s).2 := by
  intro table
  induction table with
  | nil => intro s lbl src h; simp [scanLineEntries]
  | cons r rest ih =>
    intro s lbl src h
    unfold scanLineEntries
    split
    · rename_i hcond
      have hne : r.state ≠ lbl := fun he => hcond.2 (he ▸ h)
      split
      · simp only [List.mem_singleton]
        intro hc
        injection hc with h1 h2 h3
        exact hne h2.symm
      · intro hc
        rcases List.mem_cons.1 hc with he | hm
        · cases he; exact hne rfl
        · exact ih ⟨s.closed, r.state :: s.detected⟩ lbl src
            (List.mem_cons_of_mem _ h) hm
    · exact ih s lbl src h

theorem scan_count_le_one (name fk line : String) :
    ∀ (table : List KeywordRule) (s : LogWatchState) (lbl src : String),
      ((scanLineEntries name fk line table s).2.count
        (WsEvent.logEvent name lbl src)) ≤ 1 := by
  intro table
  induction table with
  | nil => intro s lbl src; simp [scanLineEntries]
  | cons r rest ih =>
    intro s lbl src
    unfold scanLineEntries
    split
    · split
      · exact List.count_le_length _ _ |>.trans (by simp)
      · rw [List.count_cons]
        by_cases he : WsEvent.logEvent name lbl src =
            WsEvent.logEvent name r.state "docker"
        · have hlbl : lbl = r.state := by cases he; rfl
          have hmem : lbl ∈ (⟨s.closed, r.state :: s.detected⟩ :
              LogWatchState).detected := by
            rw [hlbl]; exact List.mem_cons_self _ _
          have hzero : (scanLineEntries name fk line rest
              ⟨s.closed, r.state :: s.detected⟩).2.count
              (WsEvent.logEvent name lbl src) = 0 :=
            List.count_eq_zero.2
              (scan_no_event_of_detected name fk line rest _ lbl src hmem)
          simp only [hzero]
          split <;> omega
        · have : ((WsEvent.logEvent name r.state "docker" ==
              WsEvent.logEvent name lbl src) : Bool) = false := by
            rw [beq_eq_false_iff_ne]
            exact fun hx => he hx.symm
          simp only [this, if_neg]
          simpa using ih ⟨s.closed, r.state :: s.detected⟩ lbl src
    · exact ih s lbl src

theorem scan_not_closed_all_detected (name fk line : String) :
    ∀ (table : List KeywordRule) (s : LogWatchState),
      (scanLineEntries name fk line table s).1.closed = false →
      ∀ r ∈ table, strIncludes line r.keyword = true →
        r.state ∈ (scanLineEntries name fk line table s).1.detected := by
  intro table
  induction table with
  | nil => intro s hcl r hr; exact absurd hr (List.not_mem_nil r)
  | cons r0 rest ih =>
    intro s hcl r hr hinc
    rcases List.mem_cons.1 hr with rfl | hm
    · by_cases hcond : strIncludes line r.keyword = true ∧ r.state ∉ s.detected
      · rw [scanLineEntries, if_pos hcond] at hcl ⊢
        by_cases hfin : r.keyword = fk
        · rw [if_pos hfin] at hcl
          simp at hcl
        · rw [if_neg hfin] at hcl ⊢
          exact scan_detected_mono name fk line rest _ r.state
            (List.mem_cons_self _ _)
      · rw [scanLineEntries, if_neg hcond] at hcl ⊢
        have hdet : r.state ∈ s.detected := by
          by_contra hn
          exact hcond ⟨hinc, hn⟩
        exact scan_detected_mono name fk line rest s r.state hdet
    · by_cases hcond : strIncludes line r0.keyword = true ∧ r0.state ∉ s.detected
      · rw [scanLineEntries, if_pos hcond] at hcl ⊢
        by_cases hfin : r0.keyword = fk
        · rw [if_pos hfin] at hcl
          simp at hcl
        · rw [if_neg hfin] at hcl ⊢
          exact ih _ hcl r hm hinc
      · rw [scanLineEntries, if_neg hcond] at hcl ⊢
        exact ih s hcl r hm hinc

theorem scan_all_detected_no_events (name fk line : String) :
    ∀ (table : List KeywordRule) (s : LogWatchState),
      (∀ r ∈ table, strIncludes line r.keyword = true →
        r.state ∈ s.detected) →
      scanLineEntries name fk line table s = (s, []) := by
  intro table
  induction table with
  | nil => intro s hall; rfl
  | cons r0 rest ih =>
    intro s hall
    have hcond : ¬(strIncludes line r0.keyword = true ∧
        r0.state ∉ s.detected) := by
      rintro ⟨hinc, hnot⟩
      exact hnot (hall r0 (List.mem_cons_self _ _) hinc)
    rw [scanLineEntries, if_neg hcond]
    exact ih s (fun r hr => hall r (List.mem_cons_of_mem _ hr))

theorem processLogLine_second_pass (name fk : String)
    (table : List KeywordRule) (s : LogWatchState) (line : String) :
    (processLogLine name fk table
      (processLogLine name fk table s line).1 line).2 = [] := by
  unfold processLogLine
  by_cases hc : s.closed = true
  · rw [if_pos hc, if_pos hc]
  · rw [if_neg hc]
    by_cases h2 : (scanLineEntries name fk line table s).1.closed = true
    · rw [if_pos h2]
    · rw [if_neg h2]
      rw [scan_all_detected_no_events name fk line table
        (scanLineEntries name fk line table s).1
        (scan_not_closed_all_detected name fk line table s
          (Bool.not_eq_true _ ▸ h2))]

/-- Modelled from the spec: the table file `config/dockerKeyword.json`
consumed by `monitorDockerLogs` is not part of the sources; its
`{keyword, state}` rows are reconstructed from the spec's bootstrap
stage table (SteamCMD / ARK download / verification / Proton setup
progress, substring readings of the documented patterns), ending with
the final hand-over keyword that `monitorsService.js` hard-codes. -/
def dockerKeywordTable : List KeywordRule :=
  [⟨"Connecting anonymously to Steam Public... OK", "SteamCMD Init"⟩,
   ⟨"Update state (0x61) downloading", "ARK Download Start"⟩,
   ⟨"downloading, progress: 100.00", "ARK Download Complete"⟩,
   ⟨"Update state (0x81) verifying update", "ARK Verification Start"⟩,
   ⟨"Downloading Proton version", "Proton Download Start"⟩,
   ⟨"Upgrading prefix from", "Proton Setup"⟩,
   ⟨"Starting the ARK: Survival Ascended dedicated server...", "ARK Server Launch Command"⟩,
   ⟨"wine: RLIMIT_NICE is <= 20, unable to use setpriority safely", "End Docker Stage"⟩]

/-- The final keyword hard-coded in `monitorDockerLogs`. -/
def dockerFinalKeyword : String :=
  "wine: RLIMIT_NICE is <= 20, unable to use setpriority safely"

/-- C5: scanning a line broadcasts at most one log event per state
label, and none for a label already detected; a line processed twice
broadcasts nothing on the second pass; the download progress line
yields exactly one download-complete log event and the final keyword
line closes the stream. -/
theorem logKeyword_scan_spec :
    (∀ (name fk line lbl src : String) (table : List KeywordRule)
        (s : LogWatchState), lbl ∈ s.detected →
      WsEvent.logEvent name lbl src ∉
        (processLogLine name fk table s line).2) ∧
    (∀ (name fk line lbl src : String) (table : List KeywordRule)
        (s : LogWatchState),
      ((processLogLine name fk table s line).2.count
        (WsEvent.logEvent name lbl src)) ≤ 1) ∧
    (∀ (name fk line : String) (table : List KeywordRule)
        (s : LogWatchState),
      (processLogLine name fk table
        (processLogLine name fk table s line).1 line).2 = []) ∧
    ((processLogLine "Island01" dockerFinalKeyword dockerKeywordTable
        freshLogWatch
        "Update state (0x61) downloading, progress: 100.00").2.count
      (WsEvent.logEvent "Island01" "ARK Download Complete" "docker") = 1) ∧
    ((processLogLine "Island01" dockerFinalKeyword dockerKeywordTable
        (processLogLine "Island01" dockerFinalKeyword dockerKeywordTable
          freshLogWatch
          "Update state (0x61) downloading, progress: 100.00").1
        "Update state (0x61) downloading, progress: 100.00").2 = []) ∧
    ((processLogLine "Island01" dockerFinalKeyword dockerKeywordTable
        freshLogWatch dockerFinalKeyword).1.closed = true) := by
  refine ⟨?_, ?_, ?_, by decide, by decide, by decide⟩
  · intro name fk line lbl src table s h
    unfold processLogLine
    split
    · simp
    · exact scan_no_event_of_detected name fk line table s lbl src h
  · intro name fk line lbl src table s
    unfold processLogLine
    split
    · simp
    · exact scan_count_le_one name fk line table s lbl src
  · intro name fk line table s
    exact processLogLine_second_pass name fk table s line

/-- C5 witness: a label already detected broadcasts nothing further. -/
theorem logKeyword_scan_spec_witness :
    WsEvent.logEvent "A" "X" "docker" ∉
      (processLogLine "A" "" [] ⟨false, ["X"]⟩ "line").2 :=
  logKeyword_scan_spec.1 "A" "" "line" "X" "docker" [] ⟨false, ["X"]⟩
    (by decide)

/-! ## Startup watchdog (`monitorServerState`, part_010 revision)

part_010 is the only revision with a watchdog (the latest
`monitorsService.js` removed it: "Safety timeout removed").  Its
`monitorServerState` broadcasts `startup`, awaits the docker-log
phase, awaits the ShooterGame-log phase, then sets `running` (or
`error` in the catch block), and only then — as its last statement —
registers `setTimeout(..., 300000)`.  The callback reads the cached
entry and calls `executeStopServer` when it is absent or still
`startup`; it writes nothing to the cache.  Each awaited phase is
modelled by its outcome: resolved, rejected, or never settling
(`none`, e.g. a follow-mode log stream that never produces the final
keyword and never ends). -/

/-- The watchdog delay in milliseconds. -/
def watchdogTimeoutMs : Nat := 300000

/-- The watchdog timer callback: returns the (untouched) status cache
and the number of stop calls it makes. -/
def watchdogOnTimeout (m : List (String × StatusEntry)) (name : String) :
    List (String × StatusEntry) × Nat :=
  match objGet m name with
  | none => (m, 1)
  | some e => if e.status = .startup then (m, 1) else (m, 0)

/-- `monitorServerState` of part_010 as a function of the two awaited
log-phase outcomes: final cache state, status broadcasts, and whether
the trailing `setTimeout` was ever reached (timer armed). -/
def monitorServerStateRun (st : MonState) (name : String)
    (dockerPhase shooterPhase : Option (Except String Unit)) :
    MonState × List WsEvent × Bool :=
  let r0 := updateAndNotifyStatus st name .startup none
  match dockerPhase with
  | none => (r0.1, [r0.2], false)
  | some (Except.error _) =>
    let r1 := updateAndNotifyStatus r0.1 name .error none
    (r1.1, [r0.2, r1.2], true)
  | some (Except.ok _) =>
    match shooterPhase with
    | none => (r0.1, [r0.2], false)
    | some (Except.error _) =>
      let r1 := updateAndNotifyStatus r0.1 name .error none
      (r1.1, [r0.2, r1.2], true)
    | some (Except.ok _) =>
      let r1 := updateAndNotifyStatus r0.1 name .running none
      (r1.1, [r0.2, r1.2], true)

theorem updateAndNotifyStatus_status (st : MonState) (name : String)
    (status : Status) (extraError : Option (Option String)) :
    (objGet (updateAndNotifyStatus st name status extraError).1.serversStatus
      name).map (·.status) = some status := by
  simp only [updateAndNotifyStatus]
  rw [setServerStatus_objGet_self]
  rfl

theorem monitorRun_armed_status (st : MonState) (name : String)
    (dp sp : Option (Except String Unit))
    (harm : (monitorServerStateRun st name dp sp).2.2 = true) :
    (objGet (monitorServerStateRun st name dp sp).1.serversStatus name).map
        (·.status) = some .running ∨
    (objGet (monitorServerStateRun st name dp sp).1.serversStatus name).map
        (·.status) = some .error := by
  rcases dp with _ | dp0
  · exact absurd harm (by simp [monitorServerStateRun])
  · rcases dp0 with msg | u
    · simp only [monitorServerStateRun]
      exact Or.inr (updateAndNotifyStatus_status _ name .error none)
    · rcases sp with _ | sp0
      · exact absurd harm (by simp [monitorServerStateRun])
      · rcases sp0 with msg2 | u2
        · simp only [monitorServerStateRun]
          exact Or.inr (updateAndNotifyStatus_status _ name .error none)
        · simp only [monitorServerStateRun]
          exact Or.inl (updateAndNotifyStatus_status _ name .running none)

/-- C2 (code bug): in the only revision with a watchdog (part_010),
the 5-minute timer is `monitorServerState`'s last statement, armed
only after the awaited log phases settle.  A session that never
observes a phase keyword leaves the docker-log promise pending: the
timer is never armed, no stop call is made, and the status stays
`startup` instead of becoming `error`.  Whenever the timer is armed,
the status has just been set to `running` or `error`, so a callback
firing on that cache makes no stop call; and the callback never
writes the status cache at all, so no `error` transition can come
from the watchdog. -/
theorem watchdog_startup_branch_unreachable :
    ((monitorServerStateRun ⟨[], []⟩ "A" none none).2.2 = false ∧
     (objGet (monitorServerStateRun ⟨[], []⟩ "A" none
        none).1.serversStatus "A").map (·.status) = some .startup ∧
     ¬((objGet (monitorServerStateRun ⟨[], []⟩ "A" none
        none).1.serversStatus "A").map (·.status) = some .error)) ∧
    (∀ (st : MonState) (name : String)
        (dp sp : Option (Except String Unit)),
      (monitorServerStateRun st name dp sp).2.2 = true →
      (objGet (monitorServerStateRun st name dp sp).1.serversStatus
          name).map (·.status) = some .running ∨
      (objGet (monitorServerStateRun st name dp sp).1.serversStatus
          name).map (·.status) = some .error) ∧
    (∀ (st : MonState) (name : String)
        (dp sp : Option (Except String Unit)),
      (monitorServerStateRun st name dp sp).2.2 = true →
      watchdogOnTimeout
          (monitorServerStateRun st name dp sp).1.serversStatus name =
        ((monitorServerStateRun st name dp sp).1.serversStatus, 0)) ∧
    (∀ m name, (watchdogOnTimeout m name).1 = m) ∧
    watchdogTimeoutMs = 5 * 60 * 1000 := by
  refine ⟨⟨by decide, by decide, by decide⟩, monitorRun_armed_status, ?_, ?_,
    rfl⟩
  · intro st name dp sp harm
    rcases monitorRun_armed_status st name dp sp harm with h | h <;>
    · obtain ⟨e, hg, hst⟩ := Option.map_eq_some'.1 h
      unfold watchdogOnTimeout
      rw [hg]
      dsimp only
      rw [if_neg (by simp [hst])]
  · intro m name
    unfold watchdogOnTimeout
    cases objGet m name with
    | none => rfl
    | some e =>
      by_cases h : e.status = .startup <;> simp [h]

/-- C2 witness: a session whose two phases both resolve arms the
timer; the callback fired on the resulting cache makes no stop call
and leaves it unchanged. -/
theorem watchdog_startup_branch_unreachable_witness :
    watchdogOnTimeout
        (monitorServerStateRun ⟨[], []⟩ "A" (some (Except.ok ()))
          (some (Except.ok ()))).1.serversStatus "A" =
      ((monitorServerStateRun ⟨[], []⟩ "A" (some (Except.ok ()))
          (some (Except.ok ()))).1.serversStatus, 0) :=
  watchdog_startup_branch_unreachable.2.2.1 ⟨[], []⟩ "A"
    (some (Except.ok ())) (some (Except.ok ())) (by decide)
